import Mathlib

/-!
Verification of the Oat dataflow pipeline core against its sources.

Shallow embedding of:
- `src/src/buffer/FrameBuffer.cpp` (`FrameBuffer::push`, `FrameBuffer::pop`)
- `src/src/decorator/Decorator.cpp` (`Decorator::process`)
- `src/src/recorder/main.cpp` and `src/src/positionsocket/main.cpp`
  (`sigHandler`, `run`, tail of `main`)
- `src/experiments/src/matclient.cpp` (the consumer loop)
- `src/lib/datatypes/Position2D.h` (`Position2D::convertToWorldCoordinates`)
- `src/src/positiondetector/DifferenceDetector.cpp`
  (`DifferenceDetector::applyConfiguration`, area block)
- `src/lib/utility/ProgramOptions.cpp` (`extractConfigFileKey`)

Machine doubles that are only compared and copied are modelled by `ℚ`;
pixel frames are abstracted by an identifier (`Nat`), since none of the
verified properties inspects pixel contents.
-/

namespace Oat

/-- A frame sample, abstracted to an identifier.  `FrameBuffer` only clones
and copies frames; it never inspects their pixels, so the identity of a
sample is all the model needs. -/
abbrev Frame := Nat

/-- Result of one call of `FrameBuffer::push`
(`src/src/buffer/FrameBuffer.cpp` lines 52-79).

* `ring`     : contents of `buffer_` after the call (front = oldest);
* `overrun`  : `true` iff the line `std::cerr << "Buffer overrun.\n"` ran,
               i.e. `buffer_.push` returned `false`;
* `notified` : `true` iff `cv_.notify_one()` ran;
* `isEnd`    : the `bool` return value (`true` iff `source_.wait()`
               returned `oat::NodeState::END`).

`buffer_` is a bounded single-producer single-consumer queue of capacity
`cap` (`BUFFSIZE`, declared in the `FrameBuffer` header): `push` enqueues
at the back when the queue holds fewer than `cap` items and otherwise
returns `false` leaving the queue unchanged.  The capacity is a
construction-time constant and is kept as a parameter here. -/
structure PushResult where
  ring : List Frame
  overrun : Bool
  notified : Bool
  isEnd : Bool
deriving DecidableEq, Repr

/-- One call of `FrameBuffer::push` (`src/src/buffer/FrameBuffer.cpp`
lines 52-79) given the current ring contents and the outcome of
`source_.wait()` (`none` = `END`, `some f` = `OK` with sample `f`). -/
def pushOnce (cap : Nat) (ring : List Frame) (sample : Option Frame) :
    PushResult :=
  match sample with
  | none => { ring := ring, overrun := false, notified := false, isEnd := true }
  | some f =>
      if ring.length < cap then
        { ring := ring ++ [f], overrun := false, notified := true, isEnd := false }
      else
        { ring := ring, overrun := true, notified := true, isEnd := false }

/-- Program counter of the `FrameBuffer::pop` thread
(`src/src/buffer/FrameBuffer.cpp` lines 81-112):
`top` = at the `while (sink_running_)` check, `waiting` = blocked in
`cv_.wait_for(lk, msec(10))`, `inner` = in the
`while (buffer_.read_available() > 0)` publication loop, `exited` = the
thread function returned. -/
inductive PopPC
  | top
  | waiting
  | inner
  | exited
deriving DecidableEq, Repr

/-- Joint state of the `FrameBuffer` push caller and pop thread.

Concrete program state:
* `ring`       : contents of `buffer_`, front = oldest;
* `downstream` : samples copied to `shared_frame_` (published via
                 `sink_.wait(); frame.copyTo(shared_frame_); sink_.post()`),
                 in publication order;
* `running`    : the `sink_running_` flag (declared in the buffer headers);
* `pending`    : a `cv_.notify_one()` was delivered to a waiting `pop` and
                 has not yet been consumed by its `wait_for` returning.
                 `notify_one` on a condition variable nobody is waiting on
                 is lost, which the update in `step` mirrors;
* `srcEnd`     : `source_.wait()` has returned `END` to `push`;
* `pc`         : position of the pop thread.

Ghost (specification-only) accounting, not present in the C++ state:
* `produced` : every sample delivered by the upstream source to `push`;
* `kept`     : the subsequence of `produced` that was enqueued (not
               dropped by an overrun);
* `dropped`  : number of samples discarded by overruns. -/
structure BufState where
  ring : List Frame
  downstream : List Frame
  running : Bool
  pending : Bool
  srcEnd : Bool
  pc : PopPC
  produced : List Frame
  kept : List Frame
  dropped : Nat
deriving DecidableEq, Repr

/-- Initial state: empty ring, pop thread started (`connectToNode`,
`src/src/buffer/FrameBuffer.cpp` line 49) and at the top of its loop. -/
def initState : BufState :=
  { ring := [], downstream := [], running := true, pending := false,
    srcEnd := false, pc := PopPC.top, produced := [], kept := [],
    dropped := 0 }

/-- Scheduler actions for the two `FrameBuffer` threads.

* `pushFrame f` : one call of `FrameBuffer::push` in which
  `source_.wait()` returned `OK` and delivered sample `f`;
* `pushEnd`     : one call of `FrameBuffer::push` in which
  `source_.wait()` returned `END`, composed with what follows in the
  caller.  Modelled from the spec: the component driver loop
  `while (!quit && !eof) eof = push();` and the `Buffer` destructor that
  clears `sink_running_` and joins the pop thread live in headers and
  component mains that are not under `src/`; per the spec, END makes the
  driver leave the loop and destruction clears the shutdown flag;
* `popEnter`    : pop passes the `while (sink_running_)` check and blocks
  in `cv_.wait_for`;
* `popWake`     : `cv_.wait_for` returns `no_timeout` (a notification was
  delivered); pop proceeds to the inner publication loop;
* `popTimeout`  : `cv_.wait_for` returns `timeout`; pop executes
  `continue`, publishing nothing;
* `popPublish`  : one iteration of the inner loop: `sink_.wait()`,
  `buffer_.consume_one` copying the oldest ring item to `shared_frame_`,
  `sink_.post()`;
* `popDone`     : `buffer_.read_available() = 0`; pop leaves the inner
  loop and returns to the `while (sink_running_)` check;
* `popExit`     : the `while (sink_running_)` check fails and the thread
  function returns. -/
inductive BufAction
  | pushFrame (f : Frame)
  | pushEnd
  | popEnter
  | popWake
  | popTimeout
  | popPublish
  | popDone
  | popExit
deriving DecidableEq, Repr

/-- One scheduler step of the `FrameBuffer` system; `none` means the
action is not enabled in state `s`.  Faithful to
`src/src/buffer/FrameBuffer.cpp` lines 52-112 plus the spec-modelled
driver/destructor collapsed into `pushEnd` (see `BufAction`). -/
def step (cap : Nat) (s : BufState) : BufAction → Option BufState
  | BufAction.pushFrame f =>
      if s.srcEnd then none
      else
        let r := pushOnce cap s.ring (some f)
        some { s with ring := r.ring,
                      pending := s.pending || (s.pc = PopPC.waiting),
                      produced := s.produced ++ [f],
                      kept := if r.overrun then s.kept else s.kept ++ [f],
                      dropped := if r.overrun then s.dropped + 1 else s.dropped }
  | BufAction.pushEnd =>
      if s.srcEnd then none
      else some { s with srcEnd := true, running := false }
  | BufAction.popEnter =>
      if s.pc = PopPC.top ∧ s.running = true then
        some { s with pc := PopPC.waiting }
      else none
  | BufAction.popWake =>
      if s.pc = PopPC.waiting ∧ s.pending = true then
        some { s with pending := false, pc := PopPC.inner }
      else none
  | BufAction.popTimeout =>
      if s.pc = PopPC.waiting ∧ s.pending = false then
        some { s with pc := PopPC.top }
      else none
  | BufAction.popPublish =>
      match s.ring with
      | [] => none
      | f :: rest =>
          if s.pc = PopPC.inner then
            some { s with ring := rest, downstream := s.downstream ++ [f] }
          else none
  | BufAction.popDone =>
      if s.pc = PopPC.inner ∧ s.ring = [] then
        some { s with pc := PopPC.top }
      else none
  | BufAction.popExit =>
      if s.pc = PopPC.top ∧ s.running = false then
        some { s with pc := PopPC.exited }
      else none

/-- Run a finite schedule of actions from a state; `none` if some action
was not enabled where attempted. -/
def runBuf (cap : Nat) (s : BufState) : List BufAction → Option BufState
  | [] => some s
  | a :: rest => (step cap s a).bind fun s' => runBuf cap s' rest

/-- The timeout, in milliseconds, of the condition-variable wait in
`FrameBuffer::pop` (`cv_.wait_for(lk, msec(10))`,
`src/src/buffer/FrameBuffer.cpp` line 87). -/
def popTimeoutMsec : Nat := 10

/-- Accounting invariant of the `FrameBuffer` system: the published
sequence followed by the current ring contents equals the enqueued
(ghost) sequence `kept`; `kept` is a subsequence of `produced`; and
every produced sample is accounted for as kept or dropped. -/
def BufInv (s : BufState) : Prop :=
  s.downstream ++ s.ring = s.kept ∧
  s.kept.Sublist s.produced ∧
  s.kept.length + s.dropped = s.produced.length

lemma bufInv_init : BufInv initState :=
  ⟨rfl, List.Sublist.refl _, rfl⟩

lemma pushOnce_enqueue {cap : Nat} {ring : List Frame} (f : Frame)
    (h : ring.length < cap) :
    pushOnce cap ring (some f) =
      { ring := ring ++ [f], overrun := false, notified := true, isEnd := false } := by
  simp [pushOnce, h]

lemma pushOnce_full {cap : Nat} {ring : List Frame} (f : Frame)
    (h : ¬ ring.length < cap) :
    pushOnce cap ring (some f) =
      { ring := ring, overrun := true, notified := true, isEnd := false } := by
  simp [pushOnce, h]

lemma bufInv_step {cap : Nat} {s s' : BufState} {a : BufAction}
    (h : step cap s a = some s') (hs : BufInv s) : BufInv s' := by
  obtain ⟨h1, h2, h3⟩ := hs
  cases a with
  | pushFrame f =>
      simp only [step] at h
      split at h
      · exact absurd h (by simp)
      · by_cases hfull : s.ring.length < cap
        · rw [pushOnce_enqueue f hfull] at h
          simp only [Option.some.injEq] at h
          subst h
          refine ⟨?_, ?_, ?_⟩
          · show s.downstream ++ (s.ring ++ [f]) = s.kept ++ [f]
            rw [← List.append_assoc, h1]
          · show (s.kept ++ [f]).Sublist (s.produced ++ [f])
            exact List.Sublist.append h2 (List.Sublist.refl [f])
          · show (s.kept ++ [f]).length + s.dropped = (s.produced ++ [f]).length
            simp only [List.length_append, List.length_cons, List.length_nil]
            omega
        · rw [pushOnce_full f hfull] at h
          simp only [Option.some.injEq] at h
          subst h
          refine ⟨h1, ?_, ?_⟩
          · show s.kept.Sublist (s.produced ++ [f])
            exact h2.trans (List.sublist_append_left _ _)
          · show s.kept.length + (s.dropped + 1) = (s.produced ++ [f]).length
            simp only [List.length_append, List.length_cons, List.length_nil]
            omega
  | pushEnd =>
      simp only [step] at h
      split at h
      · exact absurd h (by simp)
      · cases Option.some.inj h
        exact ⟨h1, h2, h3⟩
  | popEnter =>
      simp only [step] at h
      split at h
      · cases Option.some.inj h
        exact ⟨h1, h2, h3⟩
      · exact absurd h (by simp)
  | popWake =>
      simp only [step] at h
      split at h
      · cases Option.some.inj h
        exact ⟨h1, h2, h3⟩
      · exact absurd h (by simp)
  | popTimeout =>
      simp only [step] at h
      split at h
      · cases Option.some.inj h
        exact ⟨h1, h2, h3⟩
      · exact absurd h (by simp)
  | popPublish =>
      simp only [step] at h
      split at h
      · exact absurd h (by simp)
      · rename_i f rest hr
        split at h
        · cases Option.some.inj h
          refine ⟨?_, h2, h3⟩
          simp only [List.append_assoc, List.singleton_append]
          rw [← hr, h1]
        · exact absurd h (by simp)
  | popDone =>
      simp only [step] at h
      split at h
      · cases Option.some.inj h
        exact ⟨h1, h2, h3⟩
      · exact absurd h (by simp)
  | popExit =>
      simp only [step] at h
      split at h
      · cases Option.some.inj h
        exact ⟨h1, h2, h3⟩
      · exact absurd h (by simp)

lemma bufInv_runBuf {cap : Nat} :
    ∀ (tr : List BufAction) (s s' : BufState),
      runBuf cap s tr = some s' → BufInv s → BufInv s' := by
  intro tr
  induction tr with
  | nil =>
      intro s s' h hs
      cases Option.some.inj h
      exact hs
  | cons a rest ih =>
      intro s s' h hs
      simp only [runBuf, Option.bind_eq_bind] at h
      cases hstep : step cap s a with
      | none => rw [hstep] at h; exact absurd h (by simp)
      | some s1 =>
          rw [hstep] at h
          simp only [Option.some_bind] at h
          exact ih s1 s' h (bufInv_step hstep hs)

lemma step_popPublish {cap : Nat} {s : BufState} {f : Frame} {rest : List Frame}
    (hpc : s.pc = PopPC.inner) (hr : s.ring = f :: rest) :
    step cap s BufAction.popPublish =
      some { s with ring := rest, downstream := s.downstream ++ [f] } := by
  simp only [step]
  rw [hr]
  simp [hpc]

lemma popInner_drains {cap : Nat} :
    ∀ (r : List Frame) (s : BufState), s.pc = PopPC.inner → s.ring = r →
      runBuf cap s
          (List.replicate r.length BufAction.popPublish ++ [BufAction.popDone]) =
        some { s with ring := [], downstream := s.downstream ++ r,
                      pc := PopPC.top } := by
  intro r
  induction r with
  | nil =>
      intro s hpc hr
      obtain ⟨rg, ds, rn, pd, se, pc, pr, kp, dr⟩ := s
      simp only at hpc hr
      subst hpc
      subst hr
      simp [runBuf, step, List.replicate]
  | cons f rest ih =>
      intro s hpc hr
      have hstep := @step_popPublish cap s f rest hpc hr
      simp only [List.length_cons, List.replicate_succ, List.cons_append, runBuf,
                 Option.bind_eq_bind, hstep, Option.some_bind, List.append_eq]
      rw [ih { s with ring := rest, downstream := s.downstream ++ [f] }
            (by simpa using hpc) rfl]
      obtain ⟨rg, ds, rn, pd, se, pc, pr, kp, dr⟩ := s
      simp [List.append_assoc]

/-- Final state of the claim C1 counterexample schedule: ring capacity 1,
samples 5 then 6 arriving from the upstream source. -/
def c1State : BufState :=
  { ring := [5], downstream := [], running := true, pending := false,
    srcEnd := false, pc := PopPC.top, produced := [5, 6], kept := [5],
    dropped := 1 }

/-- Claim C1, counterexample: with ring capacity 1, after samples 5 and 6
arrive the ring still holds the oldest sample 5 and the incoming sample 6
is nowhere — `FrameBuffer::push` drops the incoming value, not the oldest
one, so the ring is not `[6]` as the claim's "the oldest value in the ring
is dropped to make room" would require. -/
theorem push_overrun_counterexample :
    runBuf 1 initState [BufAction.pushFrame 5, BufAction.pushFrame 6]
        = some c1State ∧
      c1State.ring = [5] ∧ c1State.ring ≠ [6] ∧ ¬ (6 ∈ c1State.ring) ∧
      c1State.dropped = 1 := by
  decide

/-- Claim C1 (amended): when a sample arrives and the ring is full,
`FrameBuffer::push` discards the incoming sample (the ring is unchanged,
so the oldest value survives), reports the overrun with a
"Buffer overrun." message on standard error — counted here by the
`overrun` flag; the code keeps no counter and throws nothing — still
notifies the pop thread, and continues normally (returns `false`, the
non-END result). -/
theorem push_overrun_drops_incoming (cap : Nat) (ring : List Frame)
    (f : Frame) (hfull : ¬ ring.length < cap) :
    pushOnce cap ring (some f) =
      { ring := ring, overrun := true, notified := true, isEnd := false } :=
  pushOnce_full f hfull

/-- Witness for `push_overrun_drops_incoming` at capacity 1, ring `[5]`,
incoming sample 6. -/
theorem push_overrun_drops_incoming_witness :
    ¬ ([5] : List Frame).length < 1 ∧
      pushOnce 1 [5] (some 6) =
        { ring := [5], overrun := true, notified := true, isEnd := false } :=
  ⟨by decide, push_overrun_drops_incoming 1 [5] 6 (by decide)⟩

/-- Final state of the claim C2 counterexample schedule: one sample
pushed, the pop thread not yet scheduled. -/
def c2CxState : BufState :=
  { ring := [0], downstream := [], running := true, pending := false,
    srcEnd := false, pc := PopPC.top, produced := [0], kept := [0],
    dropped := 0 }

/-- Claim C2, counterexample: a finite run consisting of a single push
step (capacity 2).  One sample was produced, none was copied downstream
and none dropped — it is still in the ring — so `produced = consumed +
dropped` fails for this interleaving of push and pop steps. -/
theorem fifo_accounting_counterexample :
    runBuf 2 initState [BufAction.pushFrame 0] = some c2CxState ∧
      c2CxState.produced.length ≠
        c2CxState.downstream.length + c2CxState.dropped := by
  decide

/-- Claim C2 (amended): over every finite run of the `FrameBuffer`
(any interleaving of push and pop steps), the sequence copied downstream
followed by the ring remainder equals the produced sequence restricted to
the non-dropped samples, in order (strict FIFO), and
`produced = consumed + dropped + remaining-in-ring`; in particular
`produced = consumed + dropped` holds exactly once the ring has been
drained. -/
theorem fifo_accounting (cap : Nat) (tr : List BufAction) (s : BufState)
    (h : runBuf cap initState tr = some s) :
    s.downstream ++ s.ring = s.kept ∧
      s.kept.Sublist s.produced ∧
      s.produced.length = s.downstream.length + s.dropped + s.ring.length ∧
      (s.ring = [] → s.produced.length = s.downstream.length + s.dropped) := by
  obtain ⟨h1, h2, h3⟩ := bufInv_runBuf tr initState s h bufInv_init
  have hlen : s.downstream.length + s.ring.length = s.kept.length := by
    simpa using congrArg List.length h1
  refine ⟨h1, h2, by omega, fun hr => ?_⟩
  rw [hr] at hlen
  simp only [List.length_nil, Nat.add_zero] at hlen
  omega

/-- Schedule for the `fifo_accounting` witness: pop enters its wait, a
sample is pushed (the notification is delivered), pop wakes, publishes it
and leaves the inner loop. -/
def c2Schedule : List BufAction :=
  [BufAction.popEnter, BufAction.pushFrame 9, BufAction.popWake,
   BufAction.popPublish, BufAction.popDone]

/-- Final state of the `fifo_accounting` witness schedule. -/
def c2State : BufState :=
  { ring := [], downstream := [9], running := true, pending := false,
    srcEnd := false, pc := PopPC.top, produced := [9], kept := [9],
    dropped := 0 }

/-- Witness for `fifo_accounting` on the concrete schedule `c2Schedule`
with capacity 2. -/
theorem fifo_accounting_witness :
    runBuf 2 initState c2Schedule = some c2State ∧
      (c2State.downstream ++ c2State.ring = c2State.kept ∧
        c2State.kept.Sublist c2State.produced ∧
        c2State.produced.length =
          c2State.downstream.length + c2State.dropped + c2State.ring.length ∧
        (c2State.ring = [] →
          c2State.produced.length =
            c2State.downstream.length + c2State.dropped)) :=
  ⟨by decide, fifo_accounting 2 c2Schedule c2State (by decide)⟩

/-- Final state of the claim C3 counterexample schedule. -/
def c3State : BufState :=
  { ring := [7], downstream := [], running := false, pending := false,
    srcEnd := true, pc := PopPC.exited, produced := [7], kept := [7],
    dropped := 0 }

/-- Claim C3, counterexample: a legal schedule in which sample 7 is
pushed while the pop thread is at the top of its loop (so the
`cv_.notify_one()` finds no waiter and is lost), the upstream then
reports END (the driver leaves its loop and destruction clears
`sink_running_`), and the pop thread's next `while (sink_running_)` check
fails, so it exits with sample 7 still in the ring and nothing ever
copied downstream — the ring is not drained before END propagates. -/
theorem end_drain_counterexample :
    runBuf 8 initState
        [BufAction.pushFrame 7, BufAction.pushEnd, BufAction.popExit]
        = some c3State ∧
      c3State.pc = PopPC.exited ∧ c3State.srcEnd = true ∧
      c3State.ring = [7] ∧ c3State.downstream = [] := by
  decide

/-- Claim C3 (amended): when the upstream source reports END,
`FrameBuffer::push` signals end-of-stream to its caller by returning
`true` without touching the ring or notifying; the caller then stops and
clears the shutdown flag (`pushEnd`), after which the pop thread's exit
step publishes nothing — any samples still in the ring at that point are
discarded rather than drained (see `end_drain_counterexample`), and END
reaches the downstream sink through the sink's destruction. -/
theorem push_end_signals_shutdown (cap : Nat) (ring : List Frame) :
    pushOnce cap ring none =
        { ring := ring, overrun := false, notified := false, isEnd := true } ∧
      (∀ s s' : BufState, step cap s BufAction.pushEnd = some s' →
        s'.running = false ∧ s'.srcEnd = true ∧
          s'.ring = s.ring ∧ s'.downstream = s.downstream) ∧
      (∀ s s' : BufState, step cap s BufAction.popExit = some s' →
        s'.pc = PopPC.exited ∧ s'.ring = s.ring ∧
          s'.downstream = s.downstream) := by
  refine ⟨rfl, ?_, ?_⟩
  · intro s s' h
    simp only [step] at h
    split at h
    · exact absurd h (by simp)
    · cases Option.some.inj h
      exact ⟨rfl, rfl, rfl, rfl⟩
  · intro s s' h
    simp only [step] at h
    split at h
    · cases Option.some.inj h
      exact ⟨rfl, rfl, rfl⟩
    · exact absurd h (by simp)

/-- State after the `pushEnd` step from the initial state. -/
def c3EndState : BufState :=
  { ring := [], downstream := [], running := false, pending := false,
    srcEnd := true, pc := PopPC.top, produced := [], kept := [],
    dropped := 0 }

/-- Witness for `push_end_signals_shutdown`: the `pushEnd` step from the
initial state (capacity 1) clears the shutdown flag and leaves ring and
downstream untouched. -/
theorem push_end_signals_shutdown_witness :
    step 1 initState BufAction.pushEnd = some c3EndState ∧
      (c3EndState.running = false ∧ c3EndState.srcEnd = true ∧
        c3EndState.ring = initState.ring ∧
        c3EndState.downstream = initState.downstream) :=
  ⟨by decide,
    (push_end_signals_shutdown 1 []).2.1 initState c3EndState (by decide)⟩

/-- Final state of the claim C4 counterexample schedule. -/
def c4State : BufState :=
  { ring := [3], downstream := [], running := true, pending := false,
    srcEnd := false, pc := PopPC.top, produced := [3], kept := [3],
    dropped := 0 }

/-- Claim C4, counterexample: sample 3 is pushed while the pop thread is
at the top of its loop, so `cv_.notify_one()` finds no waiter and the
notification is lost; pop then blocks in `cv_.wait_for`, wakes on the
10 ms timeout with data available in the ring — and publishes nothing
(`continue`), leaving sample 3 in the ring.  A wake with data available
does not always publish until the ring is empty. -/
theorem timeout_wake_counterexample :
    runBuf 4 initState
        [BufAction.pushFrame 3, BufAction.popEnter, BufAction.popTimeout]
        = some c4State ∧
      c4State.ring ≠ [] ∧ c4State.downstream = [] ∧
      c4State.pc = PopPC.top := by
  decide

/-- Claim C4 (amended): the pop thread blocks on a condition variable
with a timeout of exactly 10 ms (≤ 10 ms, so shutdown is observed
promptly); `FrameBuffer::push` notifies the condition variable on every
sample it processes — in particular whenever it makes the ring
non-empty; and after a wake delivered by such a notification the pop
thread publishes the ring items to the downstream sink, oldest first,
until the ring is empty.  A wake caused by the timeout publishes nothing
(see `timeout_wake_counterexample`). -/
theorem pop_wake_drains (cap : Nat) :
    popTimeoutMsec ≤ 10 ∧
      (∀ (ring : List Frame) (f : Frame),
        (pushOnce cap ring (some f)).notified = true) ∧
      (∀ s s' : BufState, step cap s BufAction.popWake = some s' →
        runBuf cap s'
            (List.replicate s'.ring.length BufAction.popPublish ++
              [BufAction.popDone]) =
          some { s' with ring := [], downstream := s'.downstream ++ s'.ring,
                         pc := PopPC.top }) := by
  refine ⟨by decide, ?_, ?_⟩
  · intro ring f
    by_cases hfull : ring.length < cap
    · rw [pushOnce_enqueue f hfull]
    · rw [pushOnce_full f hfull]
  · intro s s' h
    have hpc : s'.pc = PopPC.inner := by
      simp only [step] at h
      split at h
      · cases Option.some.inj h
        rfl
      · exact absurd h (by simp)
    exact popInner_drains s'.ring s' hpc rfl

/-- State with the pop thread waiting, one pending notification and one
sample ringed, used by the `pop_wake_drains` witness. -/
def c4WaitState : BufState :=
  { ring := [4], downstream := [], running := true, pending := true,
    srcEnd := false, pc := PopPC.waiting, produced := [4], kept := [4],
    dropped := 0 }

/-- `c4WaitState` after the notified wake. -/
def c4InnerState : BufState :=
  { ring := [4], downstream := [], running := true, pending := false,
    srcEnd := false, pc := PopPC.inner, produced := [4], kept := [4],
    dropped := 0 }

/-- Witness for `pop_wake_drains` at capacity 3: from a waiting state
with a pending notification and sample 4 in the ring, the wake leads to
a full drain publishing sample 4. -/
theorem pop_wake_drains_witness :
    step 3 c4WaitState BufAction.popWake = some c4InnerState ∧
      runBuf 3 c4InnerState
          (List.replicate c4InnerState.ring.length BufAction.popPublish ++
            [BufAction.popDone]) =
        some { c4InnerState with
                 ring := [],
                 downstream := c4InnerState.downstream ++ c4InnerState.ring,
                 pc := PopPC.top } :=
  ⟨by decide,
    (pop_wake_drains 3).2.2 c4WaitState c4InnerState (by decide)⟩

/-- Shared-memory protocol events performed by a consumer iteration:
`waitOk`/`waitEnd` are the two outcomes of a source `wait()`;
`readShared` is a read of the shared payload (`retrieve`, `clone`,
`copyTo` out of the node); `srcPost` is the source `post()`; `sinkWait`,
`writeShared` (`copyTo(shared_frame_)`) and `sinkPost` are the sink-side
counterparts. -/
inductive Ev
  | waitOk
  | waitEnd
  | readShared
  | srcPost
  | sinkWait
  | writeShared
  | sinkPost
deriving DecidableEq, Repr

/-- The events of one call of `FrameBuffer::push`
(`src/src/buffer/FrameBuffer.cpp` lines 52-79): wait; on END return
immediately; otherwise clone the shared frame and post. -/
def pushEvents (srcEnd : Bool) : List Ev :=
  if srcEnd then [Ev.waitEnd]
  else [Ev.waitOk, Ev.readShared, Ev.srcPost]

/-- The events of the pose-source loop of `Decorator::process`
(`src/src/decorator/Decorator.cpp` lines 221-233), given each pose
source's wait outcome in order (`true` = END, which makes `process`
return 1 at once). -/
def poseEvents : List Bool → List Ev
  | [] => []
  | e :: rest =>
      if e then [Ev.waitEnd]
      else Ev.waitOk :: Ev.readShared :: Ev.srcPost :: poseEvents rest

/-- The events of one call of `Decorator::process`
(`src/src/decorator/Decorator.cpp` lines 198-254): frame-source critical
section, then the pose-source loop, then — when no source reported END —
the sink-side critical section writing the decorated frame. -/
def processEvents (frameEnd : Bool) (poseEnds : List Bool) : List Ev :=
  if frameEnd then [Ev.waitEnd]
  else
    Ev.waitOk :: Ev.readShared :: Ev.srcPost ::
      (poseEvents poseEnds ++
        if poseEnds.contains true then []
        else [Ev.sinkWait, Ev.writeShared, Ev.sinkPost])

/-- The events of a run of the matclient demo loop
(`src/experiments/src/matclient.cpp` lines 66-87) that completes `k`
iterations before observing `quit`: an initial `wait`, then `k` rounds of
clone, post and wait; the loop condition then fails and the process
leaves with the final wait unposted. -/
def matclientEvents (k : Nat) : List Ev :=
  Ev.waitOk ::
    (List.replicate k [Ev.readShared, Ev.srcPost, Ev.waitOk]).flatten

/-- Critical-section scanner: `sc` is true inside a source critical
section (between a wait that returned OK and the matching post), `kc`
inside the sink critical section.  Returns `false` if a shared read or
write happens outside its critical section, or waits/posts are not
properly bracketed. -/
def evScan : Bool → Bool → List Ev → Bool
  | _, _, [] => true
  | sc, kc, e :: rest =>
      match e with
      | Ev.waitOk => !sc && evScan true kc rest
      | Ev.waitEnd => !sc && evScan sc kc rest
      | Ev.readShared => sc && evScan sc kc rest
      | Ev.srcPost => sc && evScan false kc rest
      | Ev.sinkWait => !kc && evScan sc true rest
      | Ev.writeShared => kc && evScan sc kc rest
      | Ev.sinkPost => kc && evScan sc false rest

/-- A trace observes the access protocol: shared payload reads happen
only inside a source critical section, shared frame writes only inside
the sink critical section, with proper bracketing. -/
def protocolOk (tr : List Ev) : Bool := evScan false false tr

lemma poseEvents_cons_false (rest : List Bool) :
    poseEvents (false :: rest) =
      Ev.waitOk :: Ev.readShared :: Ev.srcPost :: poseEvents rest := rfl

lemma poseEvents_cons_true (rest : List Bool) :
    poseEvents (true :: rest) = [Ev.waitEnd] := rfl

lemma evScan_poseEvents_no_end (kc : Bool) :
    ∀ (pe : List Bool) (tail : List Ev), pe.contains true = false →
      evScan false kc (poseEvents pe ++ tail) = evScan false kc tail := by
  intro pe
  induction pe with
  | nil => intro tail _; rfl
  | cons e rest ih =>
      intro tail hc
      simp only [List.contains_cons] at hc
      cases e with
      | true => simp at hc
      | false =>
          rw [poseEvents_cons_false, List.cons_append, List.cons_append,
              List.cons_append]
          show evScan false kc (poseEvents rest ++ tail) = evScan false kc tail
          exact ih tail (by simpa using hc)

lemma evScan_poseEvents_end (kc : Bool) :
    ∀ pe : List Bool, pe.contains true = true →
      evScan false kc (poseEvents pe ++ []) = true := by
  intro pe
  induction pe with
  | nil => intro hc; simp at hc
  | cons e rest ih =>
      intro hc
      cases e with
      | true => rfl
      | false =>
          rw [poseEvents_cons_false, List.cons_append, List.cons_append,
              List.cons_append]
          show evScan false kc (poseEvents rest ++ []) = true
          simp only [List.contains_cons] at hc
          exact ih (by simpa using hc)

lemma poseEvents_count_balance :
    ∀ pe : List Bool,
      (poseEvents pe).count Ev.srcPost = (poseEvents pe).count Ev.waitOk := by
  intro pe
  induction pe with
  | nil => rfl
  | cons e rest ih =>
      cases e with
      | true => rfl
      | false =>
          rw [poseEvents_cons_false]
          simp only [List.count_cons]
          simp [ih]

lemma matclientEvents_succ (k : Nat) :
    matclientEvents (k + 1) =
      Ev.waitOk :: Ev.readShared :: Ev.srcPost :: matclientEvents k := by
  simp [matclientEvents, List.replicate_succ]

/-- Claim C5 (amended): in every iteration of `FrameBuffer::push` and
`Decorator::process` and in every matclient run, the shared payload is
read only between a source wait that returned OK and the matching source
post, and the shared frame is written only between the sink wait and the
sink post; `FrameBuffer::push` and `Decorator::process` perform exactly
one post per successful wait, while a matclient run of `k` completed
iterations performs `k` posts for `k + 1` successful waits — its final
wait, after which `quit` is observed, is never posted (see
`matclient_unposted_wait_counterexample`). -/
theorem reads_within_critical_sections :
    (∀ b, protocolOk (pushEvents b) = true ∧
      (pushEvents b).count Ev.srcPost = (pushEvents b).count Ev.waitOk) ∧
      (∀ (fe : Bool) (pe : List Bool),
        protocolOk (processEvents fe pe) = true ∧
          (processEvents fe pe).count Ev.srcPost =
            (processEvents fe pe).count Ev.waitOk) ∧
      (∀ k, protocolOk (matclientEvents k) = true ∧
        (matclientEvents k).count Ev.srcPost + 1 =
          (matclientEvents k).count Ev.waitOk) := by
  refine ⟨fun b => by cases b <;> exact ⟨rfl, rfl⟩, ?_, ?_⟩
  · intro fe pe
    cases fe with
    | true => exact ⟨rfl, rfl⟩
    | false =>
        constructor
        · show evScan false false
            (poseEvents pe ++
              if pe.contains true then []
              else [Ev.sinkWait, Ev.writeShared, Ev.sinkPost]) = true
          by_cases hc : pe.contains true = true
          · rw [if_pos hc]
            exact evScan_poseEvents_end false pe hc
          · rw [if_neg hc]
            rw [evScan_poseEvents_no_end false pe _ (by simpa using hc)]
            rfl
        · have hb := poseEvents_count_balance pe
          show (Ev.waitOk :: Ev.readShared :: Ev.srcPost ::
              (poseEvents pe ++
                if pe.contains true then []
                else [Ev.sinkWait, Ev.writeShared, Ev.sinkPost])).count
                  Ev.srcPost =
            (Ev.waitOk :: Ev.readShared :: Ev.srcPost ::
              (poseEvents pe ++
                if pe.contains true then []
                else [Ev.sinkWait, Ev.writeShared, Ev.sinkPost])).count
                  Ev.waitOk
          by_cases hc : pe.contains true = true
          · rw [if_pos hc]
            simp [List.count_cons, List.count_append, hb]
          · rw [if_neg hc]
            simp [List.count_cons, List.count_append, hb]
  · intro k
    induction k with
    | zero => exact ⟨rfl, rfl⟩
    | succ n ih =>
        rw [matclientEvents_succ]
        refine ⟨ih.1, ?_⟩
        have h2 := ih.2
        simp only [List.count_cons] at h2 ⊢
        simp at h2 ⊢
        omega

/-- Claim C5, counterexample: a matclient run in which `quit` is observed
before the first loop iteration performs one successful wait and zero
posts, so the matclient loop does not perform exactly one post per
successful wait (all its reads are still inside critical sections). -/
theorem matclient_unposted_wait_counterexample :
    protocolOk (matclientEvents 0) = true ∧
      (matclientEvents 0).count Ev.srcPost ≠
        (matclientEvents 0).count Ev.waitOk := by
  decide

/-- The endpoint driver loop
`while (!quit && !source_eof) { source_eof = process(); }`
(`run` in `src/src/recorder/main.cpp` lines 49-54 and
`src/src/positionsocket/main.cpp` lines 52-57).  `eof` is the current
value of `source_eof`; `qs` supplies the successive values read from the
`volatile` flag `quit` at each loop-condition check; `rs` supplies the
successive return values of `recorder->writeStreams()` /
`sock->process()`.  Returns the number of process calls performed within
the supplied finite schedule. -/
def runLoop : Bool → List Bool → List Bool → Nat
  | eof, q :: qs, r :: rs => if q || eof then 0 else 1 + runLoop r qs rs
  | _, _, _ => 0

/-- Tail of `main` in `src/src/recorder/main.cpp` lines 217-239 and
`src/src/positionsocket/main.cpp` lines 181-235: when `run` returns
normally the program prints an "Exiting." message and returns 0; only a
caught exception leads to the failure exit of -1. -/
def driverExitCode (threw : Bool) : Int := if threw then -1 else 0

/-- The signal handler installed for SIGINT in
`src/src/recorder/main.cpp` line 44, `src/src/positionsocket/main.cpp`
line 48 and `src/experiments/src/matclient.cpp` line 33:
`void sigHandler(int s) { quit = 1; }` — it stores 1 into the
process-wide `volatile sig_atomic_t quit` regardless of the signal
number and the flag's previous value. -/
def sigHandler (_sig : Int) (_quit : Int) : Int := 1

/-- The matclient display loop `while (!quit) { ... }`
(`src/experiments/src/matclient.cpp` lines 75-87): number of completed
iterations under a schedule `qs` of values read from `quit`. -/
def matclientIters : List Bool → Nat
  | [] => 0
  | q :: qs => if q then 0 else 1 + matclientIters qs

lemma runLoop_cons (eof q r : Bool) (qs rs : List Bool) :
    runLoop eof (q :: qs) (r :: rs) =
      if q || eof then 0 else 1 + runLoop r qs rs := rfl

lemma runLoop_eof (qs rs : List Bool) : runLoop true qs rs = 0 := by
  cases qs with
  | nil => rfl
  | cons q qs' =>
      cases rs with
      | nil => rfl
      | cons r rs' => simp [runLoop_cons]

/-- Claim C6: in the driver loop, with `quit` reading clear through the
first end-of-stream return (the `true` result after `k` `false`
results), the first process call that returns the end-of-stream signal
terminates the loop: exactly `k + 1` process calls are performed, no
matter how many further quit checks (`qs`, of arbitrary values) and
further process results (`rest`) the schedule would still allow — the
loop stops because `source_eof` is set, not because the schedule ran
out; and end-of-stream is not an error: the program then reports exit
and returns status 0. -/
theorem first_eof_terminates_loop (k : Nat) (qs rest : List Bool) :
    runLoop false (List.replicate (k + 1) false ++ qs)
        (List.replicate k false ++ true :: rest) = k + 1 ∧
      driverExitCode false = 0 := by
  refine ⟨?_, rfl⟩
  induction k with
  | zero =>
      show (if (false || false) = true then 0 else 1 + runLoop true qs rest)
          = 1
      rw [if_neg (by simp), runLoop_eof]
  | succ n ih =>
      show 1 + runLoop false (List.replicate (n + 1) false ++ qs)
          (List.replicate n false ++ true :: rest) = n + 1 + 1
      rw [ih]
      omega

lemma runLoop_quit_bound :
    ∀ (n : Nat) (eof : Bool) (qs rs : List Bool),
      (∀ b ∈ qs.drop n, b = true) → runLoop eof qs rs ≤ n := by
  intro n
  induction n with
  | zero =>
      intro eof qs rs hq
      cases qs with
      | nil => cases rs <;> exact Nat.le_refl 0
      | cons q qs' =>
          cases rs with
          | nil => exact Nat.le_refl 0
          | cons r rs' =>
              have : q = true := hq q (by simp)
              rw [runLoop_cons, this]
              simp
  | succ n ih =>
      intro eof qs rs hq
      cases qs with
      | nil => cases rs <;> exact Nat.zero_le _
      | cons q qs' =>
          cases rs with
          | nil => exact Nat.zero_le _
          | cons r rs' =>
              rw [runLoop_cons]
              by_cases hq0 : (q || eof) = true
              · rw [if_pos hq0]
                exact Nat.zero_le _
              · rw [if_neg hq0]
                have := ih r qs' rs' (by simpa using hq)
                omega

lemma matclientIters_quit_bound :
    ∀ (n : Nat) (qs : List Bool),
      (∀ b ∈ qs.drop n, b = true) → matclientIters qs ≤ n := by
  intro n
  induction n with
  | zero =>
      intro qs hq
      cases qs with
      | nil => exact Nat.le_refl 0
      | cons q qs' =>
          have : q = true := hq q (by simp)
          simp [matclientIters, this]
  | succ n ih =>
      intro qs hq
      cases qs with
      | nil => exact Nat.zero_le _
      | cons q qs' =>
          simp only [matclientIters]
          by_cases h0 : q = true
          · rw [if_pos h0]
            exact Nat.zero_le _
          · rw [if_neg h0]
            have := ih qs' (by simpa using hq)
            omega

/-- Claim C7: SIGINT delivery runs a handler that unconditionally sets
the process-wide quit flag to 1, and once the flag reads as set from
check `n` onwards — the flag is never cleared — the driver loop of
recorder/positionsocket and the matclient loop perform at most `n`
iterations: no further iteration happens after the one during which the
signal arrived, giving a graceful shutdown through the normal exit
path. -/
theorem sigint_graceful_shutdown (n : Nat) (eof : Bool)
    (qs rs : List Bool) (hq : ∀ b ∈ qs.drop n, b = true) :
    (∀ (sig quit : Int), sigHandler sig quit = 1) ∧
      runLoop eof qs rs ≤ n ∧ matclientIters qs ≤ n :=
  ⟨fun _ _ => rfl, runLoop_quit_bound n eof qs rs hq,
    matclientIters_quit_bound n qs hq⟩

/-- Witness for `sigint_graceful_shutdown`: `quit` observed set from the
second check onwards stops both loops after at most one iteration. -/
theorem sigint_graceful_shutdown_witness :
    (∀ b ∈ ([false, true, true] : List Bool).drop 1, b = true) ∧
      ((∀ (sig quit : Int), sigHandler sig quit = 1) ∧
        runLoop false [false, true, true] [false, false] ≤ 1 ∧
        matclientIters [false, true, true] ≤ 1) :=
  ⟨by decide,
    sigint_graceful_shutdown 1 false [false, true, true] [false, false]
      (by decide)⟩

/-- The coordinate systems of `datatypes::Position`.  Modelled from the
spec: the `PIXELS` and `WORLD` constants are declared in
`lib/datatypes/Position.h`, which is not under `src/`;
`Position2D.h` uses them as two distinct values (`coord_system` defaults
to `PIXELS` and is switched to `WORLD` by the conversion). -/
inductive CoordSystem
  | pixels
  | world
deriving DecidableEq, Repr

/-- A 3x3 homography matrix (`cv::Matx33f`), entry `mRC` at row `R`,
column `C`.  Matrix entries and coordinates are modelled by `ℚ`: the
conversion only copies, multiplies, adds, divides and compares them, and
no property verified here depends on floating-point rounding. -/
structure Matx33 where
  m00 : ℚ
  m01 : ℚ
  m02 : ℚ
  m10 : ℚ
  m11 : ℚ
  m12 : ℚ
  m20 : ℚ
  m21 : ℚ
  m22 : ℚ
deriving DecidableEq, Repr

/-- `datatypes::Position2D` (`src/lib/datatypes/Position2D.h` lines
31-87): label from the `Position` base, pixel/world coordinate system,
optional homography, position, velocity and head direction. -/
structure Position2D where
  position_label : String
  coord_system : CoordSystem
  homography_valid : Bool
  homography : Matx33
  position_valid : Bool
  position : ℚ × ℚ
  velocity_valid : Bool
  velocity : ℚ × ℚ
  head_direction_valid : Bool
  head_direction : ℚ × ℚ
deriving DecidableEq, Repr

/-- `cv::perspectiveTransform` on a single 2-D point: `(x, y)` maps to
`((m00 x + m01 y + m02) / w, (m10 x + m11 y + m12) / w)` with
`w = m20 x + m21 y + m22`, and to `(0, 0)` when `w` vanishes. -/
def perspectiveTransform (p : ℚ × ℚ) (h : Matx33) : ℚ × ℚ :=
  if h.m20 * p.1 + h.m21 * p.2 + h.m22 = 0 then (0, 0)
  else ((h.m00 * p.1 + h.m01 * p.2 + h.m02) /
          (h.m20 * p.1 + h.m21 * p.2 + h.m22),
        (h.m10 * p.1 + h.m11 * p.2 + h.m12) /
          (h.m20 * p.1 + h.m21 * p.2 + h.m22))

/-- `Position2D::convertToWorldCoordinates`
(`src/lib/datatypes/Position2D.h` lines 53-86): when the value is in
pixel coordinates and the homography is valid, return a copy with the
position transformed by the homography, the velocity transformed by the
homography with its offset entries `(0,2)` and `(1,2)` zeroed, and
`coord_system` set to `WORLD`; otherwise return the value unchanged.
The member mutates nothing — it copies `*this` — which the embedding
reflects by being a pure function of `p`. -/
def convertToWorldCoordinates (p : Position2D) : Position2D :=
  if p.coord_system = CoordSystem.pixels ∧ p.homography_valid = true then
    { p with
        position := perspectiveTransform p.position p.homography,
        velocity := perspectiveTransform p.velocity
          { p.homography with m02 := 0, m12 := 0 },
        coord_system := CoordSystem.world }
  else p

/-- Claim C8: `convertToWorldCoordinates` leaves its argument unmodified
(it is a pure function of `p` returning a copy); when
`coord_system ≠ PIXELS` or the homography is invalid the result equals
`p`; otherwise the result has `coord_system = WORLD` with head
direction, its validity flag and the label unchanged; and the function
is idempotent — a second application is the identity. -/
theorem convertToWorld_spec (p : Position2D) :
    (p.coord_system ≠ CoordSystem.pixels ∨ p.homography_valid = false →
      convertToWorldCoordinates p = p) ∧
      (p.coord_system = CoordSystem.pixels → p.homography_valid = true →
        (convertToWorldCoordinates p).coord_system = CoordSystem.world ∧
          (convertToWorldCoordinates p).head_direction = p.head_direction ∧
          (convertToWorldCoordinates p).head_direction_valid =
            p.head_direction_valid ∧
          (convertToWorldCoordinates p).position_label = p.position_label) ∧
      convertToWorldCoordinates (convertToWorldCoordinates p) =
        convertToWorldCoordinates p := by
  refine ⟨?_, ?_, ?_⟩
  · intro h
    rw [convertToWorldCoordinates, if_neg]
    rintro ⟨h1, h2⟩
    cases h with
    | inl h => exact h h1
    | inr h => rw [h] at h2; exact Bool.false_ne_true h2
  · intro h1 h2
    rw [convertToWorldCoordinates, if_pos ⟨h1, h2⟩]
    exact ⟨rfl, rfl, rfl, rfl⟩
  · by_cases hc :
        p.coord_system = CoordSystem.pixels ∧ p.homography_valid = true
    · have hq : (convertToWorldCoordinates p).coord_system =
          CoordSystem.world := by
        rw [convertToWorldCoordinates, if_pos hc]
      conv_lhs => rw [convertToWorldCoordinates]
      rw [if_neg]
      rintro ⟨h1, _⟩
      rw [hq] at h1
      exact absurd h1 (by simp)
    · have h1 : convertToWorldCoordinates p = p := by
        rw [convertToWorldCoordinates, if_neg hc]
      rw [h1]
      exact h1

/-- A concrete pixel-coordinate position with a valid identity
homography, used by the `convertToWorld_spec` witness. -/
def pixelPos : Position2D :=
  { position_label := "default", coord_system := CoordSystem.pixels,
    homography_valid := true,
    homography := ⟨1, 0, 0, 0, 1, 0, 0, 0, 1⟩,
    position_valid := true, position := (2, 3),
    velocity_valid := false, velocity := (1, 1),
    head_direction_valid := true, head_direction := (0, 1) }

/-- Witness for `convertToWorld_spec` at `pixelPos`. -/
theorem convertToWorld_spec_witness :
    pixelPos.coord_system = CoordSystem.pixels ∧
      pixelPos.homography_valid = true ∧
      ((convertToWorldCoordinates pixelPos).coord_system =
          CoordSystem.world ∧
        (convertToWorldCoordinates pixelPos).head_direction =
          pixelPos.head_direction ∧
        (convertToWorldCoordinates pixelPos).head_direction_valid =
          pixelPos.head_direction_valid ∧
        (convertToWorldCoordinates pixelPos).position_label =
          pixelPos.position_label) :=
  ⟨rfl, rfl, (convertToWorld_spec pixelPos).2.1 rfl rfl⟩

/-- The fields of `DifferenceDetector` assigned by the `area` block of
`applyConfiguration`: `min_object_area_`, `max_object_area_` (doubles,
modelled by `ℚ`) and the `int` slider shadows `dummy0_`, `dummy1_`. -/
structure DiffDetectorAreaState where
  min_object_area : ℚ
  max_object_area : ℚ
  dummy0 : Int
  dummy1 : Int
deriving DecidableEq, Repr

/-- C++ `double` to `int` conversion truncates toward zero. -/
def cppIntOfRat (q : ℚ) : Int := if 0 ≤ q then ⌊q⌋ else ⌈q⌉

/-- The `area` block of `DifferenceDetector::applyConfiguration`
(`src/src/positiondetector/DifferenceDetector.cpp` lines 79-92), run
when the configuration supplies the two-element array `[a0, a1]`:
`min_object_area_`, `max_object_area_`, `dummy0_` and `dummy1_` are
assigned, then `std::runtime_error` is thrown iff
`min_object_area_ >= max_object_area_` (on a throw the C++ object keeps
the already-assigned fields; the embedding returns only the error). -/
def applyConfigurationArea (s : DiffDetectorAreaState) (a0 a1 : ℚ) :
    Except String DiffDetectorAreaState :=
  let s1 : DiffDetectorAreaState :=
    { s with min_object_area := a0, max_object_area := a1,
             dummy0 := cppIntOfRat a0, dummy1 := cppIntOfRat a1 }
  if s1.min_object_area ≥ s1.max_object_area then
    Except.error ("Max area should be larger than min area.")
  else Except.ok s1

lemma applyConfigurationArea_eq (s : DiffDetectorAreaState) (a0 a1 : ℚ) :
    applyConfigurationArea s a0 a1 =
      if a0 ≥ a1 then
        Except.error ("Max area should be larger than min area.")
      else
        Except.ok { s with min_object_area := a0, max_object_area := a1,
                           dummy0 := cppIntOfRat a0,
                           dummy1 := cppIntOfRat a1 } := rfl

/-- Claim C9: for every configuration supplying the two-element `area`
array `[a0, a1]`, the `area` block of
`DifferenceDetector::applyConfiguration` throws a runtime error iff
`a0 ≥ a1`, and when it does not throw, `min_object_area_` equals `a0`
and `max_object_area_` equals `a1`. -/
theorem applyConfiguration_area_spec (s : DiffDetectorAreaState)
    (a0 a1 : ℚ) :
    ((∃ msg, applyConfigurationArea s a0 a1 = Except.error msg) ↔
        a0 ≥ a1) ∧
      (∀ s', applyConfigurationArea s a0 a1 = Except.ok s' →
        s'.min_object_area = a0 ∧ s'.max_object_area = a1) := by
  rw [applyConfigurationArea_eq]
  by_cases hge : a0 ≥ a1
  · rw [if_pos hge]
    refine ⟨⟨fun _ => hge, fun _ => ⟨_, rfl⟩⟩, ?_⟩
    intro s' h
    exact absurd h (by simp)
  · rw [if_neg hge]
    refine ⟨⟨fun he => ?_, fun h => absurd h hge⟩, ?_⟩
    · obtain ⟨msg, hmsg⟩ := he
      exact absurd hmsg (by simp)
    · intro s' h
      cases Except.ok.inj h
      exact ⟨rfl, rfl⟩

/-- Initial detector area fields for the
`applyConfiguration_area_spec` witness. -/
def areaState0 : DiffDetectorAreaState :=
  { min_object_area := 0, max_object_area := 10000,
    dummy0 := 0, dummy1 := 10000 }

/-- Witness for `applyConfiguration_area_spec` with the area array
`[2, 10]`. -/
theorem applyConfiguration_area_witness :
    applyConfigurationArea areaState0 2 10 =
        Except.ok { min_object_area := 2, max_object_area := 10,
                    dummy0 := 2, dummy1 := 10 } ∧
      (({ min_object_area := 2, max_object_area := 10, dummy0 := 2,
          dummy1 := 10 } : DiffDetectorAreaState).min_object_area = 2 ∧
        ({ min_object_area := 2, max_object_area := 10, dummy0 := 2,
           dummy1 := 10 } : DiffDetectorAreaState).max_object_area = 10) :=
  have hok : applyConfigurationArea areaState0 2 10 =
      Except.ok { min_object_area := 2, max_object_area := 10,
                  dummy0 := 2, dummy1 := 10 } := by
    rw [applyConfigurationArea_eq, if_neg (by norm_num)]
    norm_num [cppIntOfRat, areaState0]
  ⟨hok,
    (applyConfiguration_area_spec areaState0 2 10).2
      { min_object_area := 2, max_object_area := 10, dummy0 := 2,
        dummy1 := 10 } hok⟩

/-- `oat::extractConfigFileKey` (`src/lib/utility/ProgramOptions.cpp`
lines 48-61).  The boost `variables_map` is passed by value and only
read, so the caller's map is never modified; the embedding takes the
stored value of the "config" option: `none` when the option's
`variable_value` is empty (no value stored), `some v` when the vector of
strings `v` is stored.  `ret` starts empty, is overwritten by the stored
value when one exists, and a `std::runtime_error` is thrown when the
stored vector does not have exactly two entries. -/
def extractConfigFileKey (config : Option (List String)) :
    Except String (List String) :=
  match config with
  | none => Except.ok []
  | some v =>
      if v.length ≠ 2 then
        Except.error ("Configuration must be supplied as file key pair.\n")
      else Except.ok v

/-- Claim C10: `extractConfigFileKey` returns the empty vector when the
"config" option is empty (no value stored), returns the stored value
when it holds exactly two strings, and throws a runtime error for every
other stored length; it only reads its by-value argument, so the
caller's map is never modified (the embedding is a pure function). -/
theorem extractConfigFileKey_spec :
    extractConfigFileKey none = Except.ok [] ∧
      (∀ v : List String, v.length = 2 →
        extractConfigFileKey (some v) = Except.ok v) ∧
      (∀ v : List String, v.length ≠ 2 →
        extractConfigFileKey (some v) =
          Except.error
            ("Configuration must be supplied as file key pair.\n")) := by
  refine ⟨rfl, ?_, ?_⟩
  · intro v hv
    simp [extractConfigFileKey, hv]
  · intro v hv
    simp [extractConfigFileKey, hv]

/-- Witness for `extractConfigFileKey_spec` at the stored pair
`["oat.toml", "detector"]`. -/
theorem extractConfigFileKey_spec_witness :
    (["oat.toml", "detector"] : List String).length = 2 ∧
      extractConfigFileKey (some ["oat.toml", "detector"]) =
        Except.ok ["oat.toml", "detector"] :=
  ⟨rfl, extractConfigFileKey_spec.2.1 ["oat.toml", "detector"] rfl⟩

end Oat
